import Mathlib

/-!
Shallow embedding of the search, caching, OCR and ingestion core of
PDF-Search-Plus (`pdf_search_plus/utils/security.py`, `utils/db.py`,
`utils/cache.py`, `core/ocr/tesseract.py`, `core/pdf_processor.py`),
together with theorems settling the frozen claims about it.

Machine-level conventions: timestamps (`CURRENT_TIMESTAMP`, `time.time()`)
are modelled as natural numbers supplied explicitly as a `now` argument;
the SQLite FTS5 engine primitives `MATCH` and `snippet(...)` are external
to the repository and are passed in as function parameters `fm`/`fsnip`;
strings are Lean `String`s.
-/

/-! ## utils/security.py -/

/-- Characters stripped by `sanitize_search_term` (the regex `[;'"\\/]` in
`pdf_search_plus/utils/security.py`). -/
def sqlSpecialChar (c : Char) : Bool :=
  c == ';' || c == '\'' || c == '"' || c == '\\' || c == '/'

/-- Model of `sanitize_search_term`: on non-empty input, strip the SQL-special
characters and cap the length at 100 characters (`sanitized[:100]`). -/
def sanitizeSearchTerm (term : String) : String :=
  if term = "" then ""
  else String.mk ((term.data.filter (fun c => !sqlSpecialChar c)).take 100)

/-- Per-character image of Python `html.escape` (with its default
`quote=True`). `html.escape` is a chain of `str.replace` calls; no
replacement rewrites characters introduced by an earlier one, so the chain
factors into this per-character map. -/
def escapeChar (c : Char) : List Char :=
  if c == '&' then "&amp;".data
  else if c == '<' then "&lt;".data
  else if c == '>' then "&gt;".data
  else if c == '"' then "&quot;".data
  else if c == '\'' then "&#x27;".data
  else [c]

/-- The control-character filter of `sanitize_text`: keep `c` iff
`ord(c) >= 32` or `c` is one of newline, carriage return, tab. -/
def keepChar (c : Char) : Bool :=
  decide (32 ≤ c.toNat) || c == '\n' || c == '\r' || c == '\t'

/-- Model of `sanitize_text`: empty/falsy input maps to `""`; otherwise
HTML-escape every character, then remove control characters. -/
def sanitizeText (s : String) : String :=
  if s = "" then ""
  else String.mk (((s.data.map escapeChar).flatten).filter keepChar)

/-! ## utils/db.py: store state -/

/-- One row of the `pdf_files` table (`created_at` is never read by the code
under claim and is omitted). -/
structure PdfFileRow where
  id : Nat
  fileName : String
  filePath : String
  lastAccessed : Nat
  deriving DecidableEq

/-- One row of the `pages` table. -/
structure PageRow where
  pdfId : Nat
  pageNumber : Nat
  text : String
  deriving DecidableEq

/-- One row of the `images` table. -/
structure ImageRow where
  pdfId : Nat
  pageNumber : Nat
  imageName : String
  imageExt : String
  deriving DecidableEq

/-- One row of the `ocr_text` table. -/
structure OcrRow where
  pdfId : Nat
  pageNumber : Nat
  ocrText : String
  deriving DecidableEq

/-- The persistent store. The FTS virtual tables `fts_content`/`fts_ocr` are
kept in exact sync with `pages`/`ocr_text` by the `AFTER INSERT/UPDATE/DELETE`
triggers installed in `create_database`, so they are read off `pages` and
`ocr` directly rather than being duplicated here. -/
structure DBState where
  pdfFiles : List PdfFileRow
  pages : List PageRow
  images : List ImageRow
  ocr : List OcrRow
  deriving DecidableEq

/-- A row of the SQL result set of `search_text`'s query, before Python-side
sanitization: `(id, file_name, page_number, text, source, last_accessed)`. -/
structure ResultRow where
  pdfId : Nat
  fileName : String
  pageNumber : Nat
  text : String
  source : String
  lastAccessed : Nat
  deriving DecidableEq

/-- A tuple returned by `search_text` to its caller:
`(pdf_id, file_name, page_number, text, source)`. -/
structure SearchResult where
  pdfId : Nat
  fileName : String
  pageNumber : Nat
  text : String
  source : String
  deriving DecidableEq

/-- SQL inner join against `pdf_files` on `pdf_id = id` (ids are the table's
primary key; the first matching row is the row). -/
def findPdf (st : DBState) (pid : Nat) : Option PdfFileRow :=
  st.pdfFiles.find? (fun f => f.id == pid)

/-- Substring test on character lists. -/
def hasSublist (needle : List Char) : List Char → Bool
  | [] => needle.isEmpty
  | c :: rest => needle.isPrefixOf (c :: rest) || hasSublist needle rest

/-- SQLite `LIKE '%term%'` with its default ASCII case folding:
case-insensitive substring containment. (`%`/`_` wildcards inside the
sanitized term itself are not modelled.) -/
def likeMatch (needle haystack : String) : Bool :=
  hasSublist (needle.data.map Char.toLower) (haystack.data.map Char.toLower)

/-- The `pages JOIN pdf_files ... WHERE pages.text LIKE ?` selection of
`search_text` (`use_fts=False` branch). -/
def pdfTextLikeRows (term : String) (st : DBState) : List ResultRow :=
  st.pages.filterMap (fun p =>
    match findPdf st p.pdfId with
    | some f =>
        if likeMatch term p.text then
          some ⟨f.id, f.fileName, p.pageNumber, p.text, "PDF Text", f.lastAccessed⟩
        else none
    | none => none)

/-- The `ocr_text JOIN pdf_files ... WHERE ocr_text.ocr_text LIKE ?`
selection of `search_text` (`use_fts=False` branch). -/
def ocrLikeRows (term : String) (st : DBState) : List ResultRow :=
  st.ocr.filterMap (fun o =>
    match findPdf st o.pdfId with
    | some f =>
        if likeMatch term o.ocrText then
          some ⟨f.id, f.fileName, o.pageNumber, o.ocrText, "OCR Text", f.lastAccessed⟩
        else none
    | none => none)

/-- The `fts_content MATCH ?` selection of `search_text` (`use_fts=True`
branch); `fm` is the FTS5 `MATCH` predicate, `fsnip` the `snippet(...)`
function, both engine primitives external to the repository. -/
def pdfTextFtsRows (fm : String → String → Bool) (fsnip : String → String → String)
    (ftsTerm : String) (st : DBState) : List ResultRow :=
  st.pages.filterMap (fun p =>
    match findPdf st p.pdfId with
    | some f =>
        if fm ftsTerm p.text then
          some ⟨f.id, f.fileName, p.pageNumber, fsnip ftsTerm p.text, "PDF Text", f.lastAccessed⟩
        else none
    | none => none)

/-- The `fts_ocr MATCH ?` selection of `search_text` (`use_fts=True` branch). -/
def ocrFtsRows (fm : String → String → Bool) (fsnip : String → String → String)
    (ftsTerm : String) (st : DBState) : List ResultRow :=
  st.ocr.filterMap (fun o =>
    match findPdf st o.pdfId with
    | some f =>
        if fm ftsTerm o.ocrText then
          some ⟨f.id, f.fileName, o.pageNumber, fsnip ftsTerm o.ocrText, "OCR Text", f.lastAccessed⟩
        else none
    | none => none)

/-- `ORDER BY last_accessed DESC` comparison between result rows (the SQL in
`search_text` orders only on `last_accessed`; it has no tie-break column). -/
def laGE (a b : ResultRow) : Prop := b.lastAccessed ≤ a.lastAccessed

instance : DecidableRel laGE := fun a b => Nat.decLe b.lastAccessed a.lastAccessed

instance : IsTotal ResultRow laGE := ⟨fun a b => Nat.le_total b.lastAccessed a.lastAccessed⟩

instance : IsTrans ResultRow laGE := ⟨fun _ _ _ hab hbc => Nat.le_trans hbc hab⟩

/-- The full ordered row set of `search_text`'s query: the SQL `UNION`
(duplicate-eliminating) of the PDF-text and OCR-text selections, ordered by
`last_accessed` descending, before `LIMIT`/`OFFSET`. The `sanitized` argument
is the already-sanitized term. -/
def searchRows (fm : String → String → Bool) (fsnip : String → String → String)
    (sanitized : String) (useFts : Bool) (st : DBState) : List ResultRow :=
  let rows :=
    if useFts then
      pdfTextFtsRows fm fsnip (sanitized ++ "*") st ++ ocrFtsRows fm fsnip (sanitized ++ "*") st
    else
      pdfTextLikeRows sanitized st ++ ocrLikeRows sanitized st
  List.insertionSort laGE rows.dedup

/-- Python-side sanitization of one result row (`search_text` lines 560-569):
`file_name` and the text/snippet field go through `sanitize_text`. -/
def sanitizeRow (r : ResultRow) : SearchResult :=
  ⟨r.pdfId, sanitizeText r.fileName, r.pageNumber, sanitizeText r.text, r.source⟩

/-- Model of `PDFDatabase.search_text(search_term, use_fts, limit, offset)`.
Returns the sanitized result page together with the store as left by the
method: for every pdf id among the returned rows it issues
`UPDATE pdf_files SET last_accessed = CURRENT_TIMESTAMP WHERE id = ?`, with
`now` standing for `CURRENT_TIMESTAMP` at call time. An empty sanitized term
returns `[]` before any query runs. -/
def searchText (fm : String → String → Bool) (fsnip : String → String → String)
    (term : String) (useFts : Bool) (limit offset : Nat) (now : Nat)
    (st : DBState) : List SearchResult × DBState :=
  let sanitized := sanitizeSearchTerm term
  if sanitized = "" then ([], st)
  else
    let window := ((searchRows fm fsnip sanitized useFts st).drop offset).take limit
    let ids := (window.map (fun r => r.pdfId)).dedup
    let st' :=
      if window.isEmpty then st
      else
        { st with
          pdfFiles := st.pdfFiles.map (fun f =>
            if ids.contains f.id then { f with lastAccessed := now } else f) }
    (window.map sanitizeRow, st')

/-- Model of `PDFDatabase.get_search_count(search_term, use_fts)`: the query
is `SELECT COUNT(*)` over the SQL `UNION` (duplicate-eliminating) of two
constant `SELECT 1` selections — one over the page text matches, one over the
OCR matches. The FTS branch selects straight from the FTS tables; the LIKE
branch joins against `pdf_files`. Only a SELECT is executed, so the store is
returned unchanged. -/
def getSearchCount (fm : String → String → Bool) (term : String) (useFts : Bool)
    (st : DBState) : Nat × DBState :=
  let sanitized := sanitizeSearchTerm term
  if sanitized = "" then (0, st)
  else
    let sel1 : List Nat :=
      if useFts then
        (st.pages.filter (fun p => fm (sanitized ++ "*") p.text)).map (fun _ => 1)
      else
        (st.pages.filter (fun p =>
          (findPdf st p.pdfId).isSome && likeMatch sanitized p.text)).map (fun _ => 1)
    let sel2 : List Nat :=
      if useFts then
        (st.ocr.filter (fun o => fm (sanitized ++ "*") o.ocrText)).map (fun _ => 1)
      else
        (st.ocr.filter (fun o =>
          (findPdf st o.pdfId).isSome && likeMatch sanitized o.ocrText)).map (fun _ => 1)
    (((sel1 ++ sel2).dedup).length, st)

/-! ## utils/cache.py: MemoryAwareLRUCache -/

/-- One entry of `MemoryAwareLRUCache.cache`:
`key -> (value, timestamp, size)`, kept in dict insertion order. -/
structure CacheEntry where
  key : Nat
  value : Nat
  time : Nat
  size : Nat
  deriving DecidableEq

/-- The memory-aware LRU cache: `max_size` and the insertion-ordered dict. -/
structure LRUCache where
  maxSize : Nat
  entries : List CacheEntry
  deriving DecidableEq

/-- `key in self.cache`. -/
def containsKey (k : Nat) (l : List CacheEntry) : Bool :=
  l.any (fun e => e.key == k)

/-- Python dict assignment `self.cache[key] = (value, time, size)`: update in
place when the key is present (order preserved), append otherwise. -/
def dictSet (k v now size : Nat) : List CacheEntry → List CacheEntry
  | [] => [⟨k, v, now, size⟩]
  | e :: t => if e.key == k then ⟨k, v, now, size⟩ :: t else e :: dictSet k v now size t

/-- `min(self.cache.items(), key=lambda x: x[1][1])`: Python `min` keeps the
first entry of minimal timestamp in iteration (insertion) order. -/
def findLRU (best : CacheEntry) : List CacheEntry → CacheEntry
  | [] => best
  | e :: t => findLRU (if e.time < best.time then e else best) t

/-- Model of `MemoryAwareLRUCache._evict_lru`: on an empty cache, return; else
delete the entry with the oldest access time. -/
def evictLRU (c : LRUCache) : LRUCache :=
  match c.entries with
  | [] => c
  | e :: t =>
      let lru := findLRU e t
      { c with entries := (e :: t).eraseP (fun x => x.key == lru.key) }

/-- Model of `MemoryAwareLRUCache.put` with the `psutil` memory-pressure check
not triggering (the claim assumes no memory-pressure eviction; that check
reads ambient system memory, an input external to the repository). When the
cache is full (`len(self.cache) >= self.max_size`) and the key is new, one LRU
entry is evicted first; then the dict assignment is performed. -/
def lruPut (now k v size : Nat) (c : LRUCache) : LRUCache :=
  let c1 :=
    if c.maxSize ≤ c.entries.length && !containsKey k c.entries then evictLRU c else c
  { c1 with entries := dictSet k v now size c1.entries }

/-! ## utils/cache.py: TimedCache -/

/-- One entry of `TimedCache.cache`: `key -> (value, expiration_time)`. -/
structure TCEntry where
  key : Nat
  value : Nat
  expiration : Nat
  deriving DecidableEq

/-- The TTL cache: default `ttl` and the insertion-ordered dict. -/
structure TimedCache where
  ttl : Nat
  entries : List TCEntry
  deriving DecidableEq

/-- Dict lookup `self.cache[key]`. -/
def tcLookup (k : Nat) (c : TimedCache) : Option TCEntry :=
  c.entries.find? (fun e => e.key == k)

/-- Python dict assignment for the TTL cache. -/
def tcSet (k v exp : Nat) : List TCEntry → List TCEntry
  | [] => [⟨k, v, exp⟩]
  | e :: t => if e.key == k then ⟨k, v, exp⟩ :: t else e :: tcSet k v exp t

/-- Model of `TimedCache.get` at wall-clock time `now`: a hit iff the key is
present and `time.time() < expiration_time`; an expired entry is deleted and
reported as a miss. -/
def tcGet (now k : Nat) (c : TimedCache) : Option Nat × TimedCache :=
  match tcLookup k c with
  | some e =>
      if now < e.expiration then (some e.value, c)
      else (none, { c with entries := c.entries.eraseP (fun x => x.key == k) })
  | none => (none, c)

/-- Model of `TimedCache.put`: expiration is `now + (ttl or self.ttl)`. -/
def tcPut (now k v : Nat) (ttlOpt : Option Nat) (c : TimedCache) : TimedCache :=
  { c with entries := tcSet k v (now + ttlOpt.getD c.ttl) c.entries }

/-- Model of `TimedCache.clear_expired`: delete every entry with
`expiration_time <= now` and return how many were deleted. -/
def tcClearExpired (now : Nat) (c : TimedCache) : Nat × TimedCache :=
  let expired := c.entries.filter (fun e => decide (e.expiration ≤ now))
  (expired.length, { c with entries := c.entries.filter (fun e => !decide (e.expiration ≤ now)) })

/-! ## core/ocr/tesseract.py -/

/-- `TesseractOCRProcessor.SKIP_ORIGINAL_IMAGE_THRESHOLD` (9 megapixels). -/
def SKIP_ORIGINAL_IMAGE_THRESHOLD : Nat := 3000 * 3000

/-- The three input shapes `extract_text` accepts, carrying the decoded
image's dimensions (decoding itself is done by the external PIL library); a
file-path input also carries whether the file exists. -/
inductive ImgInput where
  | bytes (w h : Nat)
  | image (w h : Nat)
  | path (pathExists : Bool) (w h : Nat)
  deriving DecidableEq

/-- The outcome of the external tesseract subprocess call: expiry of the
bounded timeout, a nonzero exit (`CalledProcessError`), or success with the
output file either created (holding `text`) or missing. -/
inductive SubprocResult where
  | timeout
  | failed
  | ok (outputCreated : Bool) (text : String)
  deriving DecidableEq

/-- What the `try` body of `extract_text` leaves behind: the text result,
whether the tesseract subprocess was invoked, whether a temporary directory
was created, and the final value of the `user_provided_path` flag. -/
structure TryOutcome where
  result : String
  invoked : Bool
  tempDirCreated : Bool
  userProvidedPath : Bool
  deriving DecidableEq

/-- The observable outcome of a full `extract_text` call: the returned text,
whether the subprocess was invoked, how many temporary directories were left
behind, and whether a caller-supplied input file was deleted. -/
structure OcrOutcome where
  result : String
  invoked : Bool
  leakedTempDirs : Nat
  userFileDeleted : Bool
  deriving DecidableEq

/-- The pre-optimization size gate: `skip_large_images` and
`original_pixel_count >= SKIP_ORIGINAL_IMAGE_THRESHOLD` (a `>=` comparison). -/
def tooLarge (skipLargeImages : Bool) (w h : Nat) : Bool :=
  skipLargeImages && decide (SKIP_ORIGINAL_IMAGE_THRESHOLD ≤ w * h)

/-- The subprocess-and-read tail of the `try` body: timeout and
`CalledProcessError` are caught and yield `""`; a missing output file yields
`""`; otherwise the output file's contents are read and `.strip()`-ped. -/
def runTesseract : SubprocResult → String
  | .timeout => ""
  | .failed => ""
  | .ok false _ => ""
  | .ok true text => text.trim

/-- The `try` body of `TesseractOCRProcessor.extract_text`. For bytes/Image
inputs a temp directory is created once the size gate passes. For a file-path
input, a missing file raises `FileNotFoundError` (caught by the generic
`except`, yielding `""`); otherwise `_optimize_image_for_ocr` always returns a
fresh image object (it always applies `ImageEnhance.Contrast(...).enhance`),
so `optimized is not image` always holds: the branch clears
`user_provided_path` and switches to a freshly created temp file. -/
def tryBody (skipLargeImages : Bool) (inp : ImgInput) (sub : SubprocResult) : TryOutcome :=
  match inp with
  | .bytes w h =>
      if tooLarge skipLargeImages w h then ⟨"", false, false, false⟩
      else ⟨runTesseract sub, true, true, false⟩
  | .image w h =>
      if tooLarge skipLargeImages w h then ⟨"", false, false, false⟩
      else ⟨runTesseract sub, true, true, false⟩
  | .path pathExists w h =>
      if !pathExists then ⟨"", false, false, true⟩
      else if tooLarge skipLargeImages w h then ⟨"", false, false, true⟩
      else ⟨runTesseract sub, true, true, false⟩

/-- Model of `TesseractOCRProcessor.extract_text`. The `finally` block removes
the temporary directory iff one was created and the input was not left as a
caller-supplied path; it removes only that directory, so a caller-supplied
input file is never deleted. -/
def extractText (skipLargeImages : Bool) (inp : ImgInput) (sub : SubprocResult) : OcrOutcome :=
  let t := tryBody skipLargeImages inp sub
  let leaked :=
    if t.tempDirCreated && !t.userProvidedPath then 0
    else if t.tempDirCreated then 1 else 0
  ⟨t.result, t.invoked, leaked, false⟩

/-! ## utils/security.py: sanitize_filename (used by process_pdf) -/

/-- The regex class `[/\\]` of `sanitize_filename`. -/
def pathTraversalChar (c : Char) : Bool :=
  c == '/' || c == '\\'

/-- The regex class `[<>:"|?*]` of `sanitize_filename`. -/
def invalidFilenameChar (c : Char) : Bool :=
  c == '<' || c == '>' || c == ':' || c == '"' || c == '|' || c == '?' || c == '*'

/-- Python `str.strip(' .')`: drop leading and trailing spaces and dots. -/
def stripSpaceDot (l : List Char) : List Char :=
  let p := fun c => c == ' ' || c == '.'
  ((l.dropWhile p).reverse.dropWhile p).reverse

/-- `Path(name).stem` for a bare file name with no leading dot (guaranteed
here, the name was just stripped of leading dots): everything before the last
dot when a dot is present, else the whole name. -/
def stemOf (l : List Char) : List Char :=
  if l.contains '.' then ((l.reverse.dropWhile (fun c => !(c == '.'))).drop 1).reverse
  else l

/-- The reserved Windows device names checked by `sanitize_filename`. -/
def reservedNames : List String :=
  ["CON", "PRN", "AUX", "NUL",
   "COM1", "COM2", "COM3", "COM4", "COM5", "COM6", "COM7", "COM8", "COM9",
   "LPT1", "LPT2", "LPT3", "LPT4", "LPT5", "LPT6", "LPT7", "LPT8", "LPT9"]

/-- Python `str.split('.')`. -/
def splitOnDot : List Char → List (List Char)
  | [] => [[]]
  | c :: t =>
      let r := splitOnDot t
      if c == '.' then [] :: r
      else
        match r with
        | [] => [[c]]
        | h :: rest => (c :: h) :: rest

/-- Model of `sanitize_filename`: replace path separators and reserved
characters with `_`, drop control characters, strip surrounding spaces/dots,
cap at 255 characters, avoid reserved Windows device names, and fall back to
`"unnamed"` when nothing is left. -/
def sanitizeFilename (filename : String) : String :=
  if filename = "" then "unnamed"
  else
    let s1 := filename.data.map (fun c => if pathTraversalChar c then '_' else c)
    let s2 := s1.filter (fun c => decide (32 ≤ c.toNat))
    let s3 := s2.map (fun c => if invalidFilenameChar c then '_' else c)
    let s4 := stripSpaceDot s3
    let s5 := s4.take 255
    let stemUpper := String.mk ((stemOf s5).map Char.toUpper)
    let s6 :=
      if reservedNames.contains stemUpper then
        match splitOnDot s5 with
        | [] => s5 ++ ['_']
        | [_] => s5 ++ ['_']
        | p :: ps => p ++ ('_' :: '.' :: List.intercalate ['.'] ps)
      else s5
    if s6 = [] then "unnamed" else String.mk s6

/-! ## core/pdf_processor.py -/

/-- `PDFMetadata` after `__post_init__` (which sanitizes the file name and
stringifies the path). -/
structure Metadata where
  fileName : String
  filePath : String
  deriving DecidableEq

/-- Construction of a `PDFMetadata` from raw inputs: `__post_init__` passes
the file name through `sanitize_text`. -/
def mkMetadata (name p : String) : Metadata :=
  ⟨sanitizeText name, p⟩

/-- Model of `PDFDatabase.is_pdf_processed`: a row with the same
`(file_name, file_path)` pair exists in `pdf_files`. -/
def isPdfProcessed (m : Metadata) (st : DBState) : Bool :=
  st.pdfFiles.any (fun f => f.fileName == m.fileName && f.filePath == m.filePath)

/-- SQLite `AUTOINCREMENT`: a fresh id strictly above every id used so far. -/
def nextId (st : DBState) : Nat :=
  1 + st.pdfFiles.foldl (fun a f => max a f.id) 0

/-- Model of `PDFDatabase.insert_pdf_file`: append a `pdf_files` row with a
fresh id and `created_at`/`last_accessed` defaulted to `CURRENT_TIMESTAMP`,
returning the new id (`cursor.lastrowid`). -/
def insertPdfFile (m : Metadata) (now : Nat) (st : DBState) : Nat × DBState :=
  let pid := nextId st
  (pid, { st with pdfFiles := st.pdfFiles ++ [⟨pid, m.fileName, m.filePath, now⟩] })

/-- Model of `PDFDatabase.insert_page_text`. -/
def insertPageText (pid pn : Nat) (text : String) (st : DBState) : DBState :=
  { st with pages := st.pages ++ [⟨pid, pn, text⟩] }

/-- Model of `PDFDatabase.insert_image_metadata`. -/
def insertImageMetadata (pid pn : Nat) (name ext : String) (st : DBState) : DBState :=
  { st with images := st.images ++ [⟨pid, pn, name, ext⟩] }

/-- Model of `PDFDatabase.insert_image_ocr_text`. -/
def insertImageOcrText (pid pn : Nat) (text : String) (st : DBState) : DBState :=
  { st with ocr := st.ocr ++ [⟨pid, pn, text⟩] }

/-- One embedded image of a decoded page: its extension and the text the OCR
backend (`ocr_processor.process_image_bytes`) returns for it. -/
structure ImageContent where
  ext : String
  ocrText : String
  deriving DecidableEq

/-- One decoded page: its extracted text and its embedded images. -/
structure PageContent where
  text : String
  images : List ImageContent
  deriving DecidableEq

/-- The per-image step of `process_pdf`'s page loop: store the image metadata
under the sanitized generated name; when OCR yielded non-empty text, sanitize
and store it. -/
def processImage (pid pn idx : Nat) (img : ImageContent) (st : DBState) : DBState :=
  let name := sanitizeFilename ("image_page" ++ toString pn ++ "_" ++ toString idx)
  let st1 := insertImageMetadata pid pn name img.ext st
  if img.ocrText = "" then st1
  else insertImageOcrText pid pn (sanitizeText img.ocrText) st1

/-- `enumerate(images, start=1)` over the page's images. -/
def processImages (pid pn : Nat) (imgs : List ImageContent) (idx : Nat) (st : DBState) : DBState :=
  match imgs with
  | [] => st
  | img :: rest => processImages pid pn rest (idx + 1) (processImage pid pn idx img st)

/-- The per-page step of `process_pdf`: store the sanitized page text, then
process the page's images. -/
def processPage (pid pn : Nat) (pc : PageContent) (st : DBState) : DBState :=
  processImages pid pn pc.images 1 (insertPageText pid pn (sanitizeText pc.text) st)

/-- `enumerate(pdf_file)` over the document's pages (`page_number = index+1`). -/
def processPagesFrom (pid pn : Nat) (cs : List PageContent) (st : DBState) : DBState :=
  match cs with
  | [] => st
  | c :: rest => processPagesFrom pid (pn + 1) rest (processPage pid pn c st)

/-- Model of `PDFProcessor.process_pdf`. `validFile`/`validPdf` are the
results of the filesystem checks `validate_file_path`/`validate_pdf_file`
(external I/O); an invalid input raises `ValueError` before any write.
`content` is the decoded document. The streaming (large-PDF) branch performs
the same store writes as the normal branch modelled here; the in-process
caches (`pdf_cache`/`image_cache`) never touch the store and are omitted. -/
def processPdf (validFile validPdf : Bool) (m : Metadata) (content : List PageContent)
    (now : Nat) (st : DBState) : Except String DBState :=
  if !validFile then .error ("Invalid file path: " ++ m.filePath)
  else if !validPdf then .error ("Not a valid PDF file: " ++ m.filePath)
  else if isPdfProcessed m st then .ok st
  else
    let r := insertPdfFile m now st
    .ok (processPagesFrom r.1 1 content r.2)

/-! ## Concrete stores and FTS stand-ins used in witnesses and counterexamples -/

/-- A store with one document and two pages, both containing "x". -/
def exTwoPages : DBState :=
  { pdfFiles := [⟨1, "A", "pa", 10⟩],
    pages := [⟨1, 1, "x one"⟩, ⟨1, 2, "x two"⟩],
    images := [], ocr := [] }

/-- A store with one document and one page whose text contains a space. -/
def exSpacePage : DBState :=
  { pdfFiles := [⟨1, "A", "pa", 10⟩],
    pages := [⟨1, 1, "a b"⟩],
    images := [], ocr := [] }

/-- Two documents; document 1 has two pages matching "x", document 2 one. -/
def exThreeRows : DBState :=
  { pdfFiles := [⟨1, "A", "pa", 10⟩, ⟨2, "B", "pb", 20⟩],
    pages := [⟨1, 1, "x a1"⟩, ⟨1, 2, "x a2"⟩, ⟨2, 1, "x b1"⟩],
    images := [], ocr := [] }

/-- A vacuous FTS `MATCH` stand-in, for evaluations on the LIKE branch where
the FTS primitives are never consulted. -/
def noFm : String → String → Bool := fun _ _ => false

/-- An identity `snippet(...)` stand-in. -/
def idSnip : String → String → String := fun _ t => t

/-! ## C1 -/

/-- A duplicate-eliminated list all of whose elements are `1` has at most one
element. -/
theorem dedup_ones_length_le_one (l : List Nat) (h : ∀ x ∈ l, x = 1) :
    l.dedup.length ≤ 1 := by
  rcases hm : l.dedup with _ | ⟨a, _ | ⟨b, t⟩⟩
  · simp
  · simp
  · exfalso
    have hd : ∀ x ∈ l.dedup, x = 1 := fun x hx => h x (List.mem_dedup.mp hx)
    have hn := List.nodup_dedup l
    rw [hm] at hd hn
    have ha := hd a (by simp)
    have hb := hd b (by simp)
    have hne := (List.nodup_cons.mp hn).1
    apply hne
    rw [ha, ← hb]
    exact List.mem_cons_self b t

/-- C1: falsified by the code — `get_search_count` counts over a SQL `UNION`
of two constant `SELECT 1` selections, and `UNION` eliminates duplicate rows,
so the count never exceeds 1 no matter how many rows match; `search_text`
returns one row per match. On the concrete store `exTwoPages` the count is 1
while a single full page of results already holds 2 rows, so summed page
lengths cannot equal the count. -/
theorem C1_count_collapses_to_at_most_one :
    (∀ (fm : String → String → Bool) (term : String) (useFts : Bool) (st : DBState),
      (getSearchCount fm term useFts st).1 ≤ 1) ∧
    (getSearchCount noFm "x" false exTwoPages).1 = 1 ∧
    (searchText noFm idSnip "x" false 100 0 50 exTwoPages).1.length = 2 := by
  refine ⟨?_, by decide, by decide⟩
  intro fm term useFts st
  unfold getSearchCount
  dsimp only
  split
  · simp
  · apply dedup_ones_length_le_one
    intro x hx
    rcases List.mem_append.mp hx with hx | hx <;>
      · revert hx
        split <;>
          · intro hx
            rcases List.mem_map.mp hx with ⟨_, _, rfl⟩
            rfl

/-! ## C2 -/

/-- C2: falsified for whitespace-only terms — `search_text` and
`get_search_count` short-circuit only on an *empty* sanitized term (Python
`if not sanitized_term:`). The term " " survives sanitization unchanged, and
`LIKE '% %'` matches the stored page "a b": the search returns one row and
the count is nonzero, where the claim demands the empty list and 0. -/
theorem C2_whitespace_term_is_searched :
    sanitizeSearchTerm " " = " " ∧
    (searchText noFm idSnip " " false 100 0 50 exSpacePage).1.length = 1 ∧
    (getSearchCount noFm " " false exSpacePage).1 = 1 := by
  exact ⟨by decide, by decide, by decide⟩

/-- C2 (amended): when the *sanitized* form of the term is the empty string,
`search_text` returns the empty list and `get_search_count` returns 0, both
without error and without touching the store. Whitespace-only sanitized terms
do not short-circuit (see the counterexample). -/
theorem C2_empty_sanitized_term_noop (fm : String → String → Bool)
    (fsnip : String → String → String) (term : String) (useFts : Bool)
    (limit offset now : Nat) (st : DBState)
    (h : sanitizeSearchTerm term = "") :
    searchText fm fsnip term useFts limit offset now st = ([], st) ∧
    getSearchCount fm term useFts st = (0, st) := by
  constructor
  · unfold searchText; simp [h]
  · unfold getSearchCount; simp [h]

/-- Witness for C2: the concrete term ";;" sanitizes to the empty string. -/
theorem C2_empty_sanitized_term_noop_witness :
    searchText noFm idSnip ";;" false 100 0 50 exSpacePage = ([], exSpacePage) ∧
    getSearchCount noFm ";;" false exSpacePage = (0, exSpacePage) :=
  C2_empty_sanitized_term_noop noFm idSnip ";;" false 100 0 50 exSpacePage (by decide)

/-! ## C3 -/

/-- C3: falsified — `search_text` itself bumps `last_accessed` for every
returned document, so consecutive limit/offset windows are drawn from
different orderings even with no external writes. On `exThreeRows` with
limit 1: the offset-0 window returns document 2 page 1 and bumps document 2;
the offset-1 window returns document 1 page 1 and bumps document 1 above
document 2; the offset-2 window then returns document 2 page 1 *again*, and
document 1 page 2 is never returned — the windows do not partition one
stable sequence. -/
theorem C3_pagination_unstable :
    ((searchText noFm idSnip "x" false 1 0 100 exThreeRows).1.map
        (fun r => (r.pdfId, r.pageNumber)) = [(2, 1)]) ∧
    ((searchText noFm idSnip "x" false 1 1 101
          (searchText noFm idSnip "x" false 1 0 100 exThreeRows).2).1.map
        (fun r => (r.pdfId, r.pageNumber)) = [(1, 1)]) ∧
    ((searchText noFm idSnip "x" false 1 2 102
          (searchText noFm idSnip "x" false 1 1 101
            (searchText noFm idSnip "x" false 1 0 100 exThreeRows).2).2).1.map
        (fun r => (r.pdfId, r.pageNumber)) = [(2, 1)]) := by
  exact ⟨by decide, by decide, by decide⟩

/-- C3 (amended): within one call the result window is the
`last_accessed`-descending ordering of the matched union, with limit/offset
applied after ordering; the query has no tie-break column, and the call's own
`last_accessed` bump makes consecutive windows non-stable (counterexample). -/
theorem C3_single_call_ordering (fm : String → String → Bool)
    (fsnip : String → String → String) (term : String) (useFts : Bool)
    (limit offset now : Nat) (st : DBState) :
    List.Sorted laGE (searchRows fm fsnip (sanitizeSearchTerm term) useFts st) ∧
    (sanitizeSearchTerm term ≠ "" →
      (searchText fm fsnip term useFts limit offset now st).1 =
        (((searchRows fm fsnip (sanitizeSearchTerm term) useFts st).drop offset).take
            limit).map sanitizeRow) := by
  constructor
  · unfold searchRows
    exact List.sorted_insertionSort laGE _
  · intro h
    unfold searchText
    simp [h]

/-- Witness for C3 (amended) at the concrete store `exThreeRows`. -/
theorem C3_single_call_ordering_witness :
    List.Sorted laGE (searchRows noFm idSnip (sanitizeSearchTerm "x") false exThreeRows) ∧
    (searchText noFm idSnip "x" false 1 0 100 exThreeRows).1 =
      (((searchRows noFm idSnip (sanitizeSearchTerm "x") false exThreeRows).drop 0).take
          1).map sanitizeRow :=
  ⟨(C3_single_call_ordering noFm idSnip "x" false 1 0 100 exThreeRows).1,
    (C3_single_call_ordering noFm idSnip "x" false 1 0 100 exThreeRows).2 (by decide)⟩

/-! ## C4 -/

/-- C4: `get_search_count` executes only a `SELECT` and returns the store
exactly unchanged — in particular no `last_accessed` changes; `search_text`
is the one that writes, and its only write is the `last_accessed` bump:
pages, images, OCR rows and every document's id/name/path are untouched. -/
theorem C4_count_does_not_mutate (fm : String → String → Bool)
    (fsnip : String → String → String) (term : String) (useFts : Bool)
    (limit offset now : Nat) (st : DBState) :
    (getSearchCount fm term useFts st).2 = st ∧
    ((searchText fm fsnip term useFts limit offset now st).2.pages = st.pages ∧
      (searchText fm fsnip term useFts limit offset now st).2.images = st.images ∧
      (searchText fm fsnip term useFts limit offset now st).2.ocr = st.ocr ∧
      (searchText fm fsnip term useFts limit offset now st).2.pdfFiles.map
          (fun f => (f.id, f.fileName, f.filePath)) =
        st.pdfFiles.map (fun f => (f.id, f.fileName, f.filePath))) := by
  constructor
  · unfold getSearchCount
    dsimp only
    split <;> rfl
  · unfold searchText
    simp only []
    split
    · exact ⟨rfl, rfl, rfl, rfl⟩
    · split
      · exact ⟨rfl, rfl, rfl, rfl⟩
      · refine ⟨rfl, rfl, rfl, ?_⟩
        rw [List.map_map]
        apply List.map_congr_left
        intro f _
        dsimp only [Function.comp]
        split <;> rfl

/-! ## C5 -/

/-- Dict assignment of a fresh key appends: the entry count grows by one. -/
theorem length_dictSet_not_mem (k v now size : Nat) (l : List CacheEntry)
    (h : containsKey k l = false) :
    (dictSet k v now size l).length = l.length + 1 := by
  induction l with
  | nil => rfl
  | cons e t ih =>
    unfold containsKey at h ih
    simp only [List.any_cons, Bool.or_eq_false_iff] at h
    unfold dictSet
    rw [if_neg (by simp [h.1])]
    simp [ih h.2]

/-- Dict assignment of a present key replaces in place: count unchanged. -/
theorem length_dictSet_mem (k v now size : Nat) (l : List CacheEntry)
    (h : containsKey k l = true) :
    (dictSet k v now size l).length = l.length := by
  induction l with
  | nil => simp [containsKey] at h
  | cons e t ih =>
    unfold containsKey at h ih
    simp only [List.any_cons, Bool.or_eq_true] at h
    unfold dictSet
    by_cases hc : (e.key == k) = true
    · rw [if_pos hc]; simp
    · rw [if_neg hc]
      rcases h with h | h
      · exact absurd h hc
      · simp [ih h]

/-- The entry `findLRU` settles on is the seed or a member of the list. -/
theorem findLRU_mem (b : CacheEntry) (l : List CacheEntry) :
    findLRU b l = b ∨ findLRU b l ∈ l := by
  induction l generalizing b with
  | nil => left; rfl
  | cons e t ih =>
    unfold findLRU
    rcases ih (if e.time < b.time then e else b) with h | h
    · rw [h]
      split
      · right; exact List.mem_cons_self e t
      · left; rfl
    · right; exact List.mem_cons_of_mem e h

/-- `findLRU` settles on an entry of minimal access time. -/
theorem findLRU_min (b : CacheEntry) (l : List CacheEntry) :
    (findLRU b l).time ≤ b.time ∧ ∀ x ∈ l, (findLRU b l).time ≤ x.time := by
  induction l generalizing b with
  | nil => exact ⟨Nat.le_refl _, fun x hx => absurd hx (List.not_mem_nil x)⟩
  | cons e t ih =>
    unfold findLRU
    have hs := ih (if e.time < b.time then e else b)
    constructor
    · refine Nat.le_trans hs.1 ?_
      split
      · exact Nat.le_of_lt (by assumption)
      · exact Nat.le_refl _
    · intro x hx
      rcases List.mem_cons.mp hx with rfl | hx
      · refine Nat.le_trans hs.1 ?_
        split
        · exact Nat.le_refl _
        · exact Nat.le_of_not_lt (by assumption)
      · exact hs.2 x hx

/-- A key absent from a dict stays absent after deleting some entry. -/
theorem containsKey_eraseP_false (k : Nat) (p : CacheEntry → Bool) (l : List CacheEntry)
    (h : containsKey k l = false) : containsKey k (l.eraseP p) = false := by
  unfold containsKey at h ⊢
  by_contra hc
  rw [Bool.not_eq_false, List.any_eq_true] at hc
  rcases hc with ⟨e, he, hk⟩
  have hme : e ∈ l := List.Sublist.mem he (List.eraseP_sublist l)
  have : l.any (fun e => e.key == k) = true := List.any_eq_true.mpr ⟨e, hme, hk⟩
  rw [h] at this
  cases this

/-- On a nonempty cache, `_evict_lru` deletes exactly one entry, one with
minimal access time. -/
theorem evictLRU_spec (c : LRUCache) (e : CacheEntry) (t : List CacheEntry)
    (h : c.entries = e :: t) :
    ∃ x ∈ c.entries, (∀ y ∈ c.entries, x.time ≤ y.time) ∧
      (evictLRU c).entries = c.entries.eraseP (fun z => z.key == x.key) ∧
      (evictLRU c).entries.length + 1 = c.entries.length := by
  have hmem : findLRU e t ∈ c.entries := by
    rw [h]
    rcases findLRU_mem e t with hx | hx
    · rw [hx]; exact List.mem_cons_self e t
    · exact List.mem_cons_of_mem e hx
  have hmin : ∀ y ∈ c.entries, (findLRU e t).time ≤ y.time := by
    intro y hy
    rw [h] at hy
    rcases List.mem_cons.mp hy with rfl | hy
    · exact (findLRU_min y t).1
    · exact (findLRU_min e t).2 y hy
  have heq : (evictLRU c).entries = c.entries.eraseP (fun z => z.key == (findLRU e t).key) := by
    unfold evictLRU
    rw [h]
  refine ⟨findLRU e t, hmem, hmin, heq, ?_⟩
  rw [heq]
  exact List.length_eraseP_add_one hmem (by simp)

/-- C5: falsified at capacity 0 — `_evict_lru` returns without evicting on an
empty dict, so a `put` into a `max_size = 0` cache inserts without evicting
and `len(cache) <= max_size` fails after the very first put. -/
theorem C5_zero_capacity_counterexample :
    ¬ (lruPut 3 5 7 1 { maxSize := 0, entries := [] }).entries.length ≤ 0 := by decide

/-- C5 (amended to `max_size ≥ 1`; the claim fails at capacity 0, see the
counterexample): with no memory-pressure eviction triggered, `put` preserves
`len(cache) ≤ max_size`; and a `put` of a new key on a full cache first
evicts exactly one entry of minimal (oldest) access time, leaving the entry
count unchanged — so inserting `max_size + 1` distinct keys still ends with
at most `max_size` entries. -/
theorem C5_lru_put_bounded (c : LRUCache) (now k v sz : Nat)
    (hC : 1 ≤ c.maxSize) (hlen : c.entries.length ≤ c.maxSize) :
    (lruPut now k v sz c).entries.length ≤ c.maxSize ∧
    (containsKey k c.entries = false → c.maxSize ≤ c.entries.length →
      ∃ x ∈ c.entries, (∀ y ∈ c.entries, x.time ≤ y.time) ∧
        (evictLRU c).entries = c.entries.eraseP (fun z => z.key == x.key) ∧
        (lruPut now k v sz c).entries.length = c.entries.length) := by
  by_cases hk : containsKey k c.entries = true
  · constructor
    · unfold lruPut
      rw [if_neg (by simp [hk])]
      rw [length_dictSet_mem k v now sz c.entries hk]
      exact hlen
    · intro h1
      rw [hk] at h1
      cases h1
  · have hkf : containsKey k c.entries = false := by
      rw [← Bool.not_eq_true]; exact hk
    by_cases hfull : c.maxSize ≤ c.entries.length
    · have hne : c.entries ≠ [] := by
        intro hnil
        rw [hnil] at hfull
        simp at hfull
        rw [hfull] at hC
        cases hC
      rcases List.exists_cons_of_ne_nil hne with ⟨e, t, he⟩
      rcases evictLRU_spec c e t he with ⟨x, hxm, hxmin, hxeq, hxlen⟩
      have hput : (lruPut now k v sz c).entries =
          dictSet k v now sz (evictLRU c).entries := by
        unfold lruPut
        rw [if_pos (by simp [hkf, hfull])]
      have hcf : containsKey k (evictLRU c).entries = false := by
        rw [hxeq]
        exact containsKey_eraseP_false k _ c.entries hkf
      have hlen2 : (lruPut now k v sz c).entries.length = c.entries.length := by
        rw [hput, length_dictSet_not_mem k v now sz _ hcf, hxlen]
      constructor
      · rw [hlen2]; exact hlen
      · intro _ _
        exact ⟨x, hxm, hxmin, hxeq, hlen2⟩
    · constructor
      · unfold lruPut
        rw [if_neg (by simp [hfull])]
        rw [length_dictSet_not_mem k v now sz c.entries hkf]
        exact Nat.succ_le_of_lt (Nat.lt_of_not_le hfull)
      · intro _ h2
        exact absurd h2 hfull

/-- A full capacity-1 cache for the C5 witness. -/
def exCache : LRUCache := { maxSize := 1, entries := [⟨1, 3, 5, 0⟩] }

/-- Witness for C5 (amended) at the concrete full cache `exCache`. -/
theorem C5_lru_put_bounded_witness :
    (lruPut 9 2 6 0 exCache).entries.length ≤ 1 ∧
    (∃ x ∈ exCache.entries, (∀ y ∈ exCache.entries, x.time ≤ y.time) ∧
      (evictLRU exCache).entries = exCache.entries.eraseP (fun z => z.key == x.key) ∧
      (lruPut 9 2 6 0 exCache).entries.length = exCache.entries.length) := by
  have h := C5_lru_put_bounded exCache 9 2 6 0 (by decide) (by decide)
  exact ⟨h.1, h.2 (by decide) (by decide)⟩

/-! ## C6 -/

/-- Image processing writes only to `images`/`ocr_text`: `pdf_files` rows are
untouched. -/
theorem pdfFiles_processImages (pid pn : Nat) (imgs : List ImageContent) (idx : Nat)
    (st : DBState) : (processImages pid pn imgs idx st).pdfFiles = st.pdfFiles := by
  induction imgs generalizing idx st with
  | nil => rfl
  | cons img rest ih =>
    unfold processImages
    rw [ih]
    unfold processImage
    simp only [insertImageMetadata, insertImageOcrText]
    split <;> rfl

/-- Page processing writes only to `pages`/`images`/`ocr_text`: `pdf_files`
rows are untouched. -/
theorem pdfFiles_processPagesFrom (pid pn : Nat) (cs : List PageContent) (st : DBState) :
    (processPagesFrom pid pn cs st).pdfFiles = st.pdfFiles := by
  induction cs generalizing pn st with
  | nil => rfl
  | cons c rest ih =>
    unfold processPagesFrom
    rw [ih]
    unfold processPage
    rw [pdfFiles_processImages]
    rfl

/-- C6: processing a PDF whose `(file_name, file_path)` pair already exists is
a no-op on the store; and any successful `process_pdf` run leaves the pair
marked processed, so a second run over the same metadata inserts no document,
page, image or OCR row — ingesting twice yields exactly what one ingestion
yields. -/
theorem C6_ingestion_idempotent (m : Metadata) (content content2 : List PageContent)
    (now now2 : Nat) (st : DBState) :
    (isPdfProcessed m st = true → processPdf true true m content now st = Except.ok st) ∧
    (∀ st1, processPdf true true m content now st = Except.ok st1 →
      processPdf true true m content2 now2 st1 = Except.ok st1) := by
  constructor
  · intro h
    unfold processPdf
    simp [h]
  · intro st1 hrun
    by_cases h : isPdfProcessed m st = true
    · unfold processPdf at hrun
      simp [h] at hrun
      subst hrun
      unfold processPdf
      simp [h]
    · unfold processPdf at hrun
      simp [h] at hrun
      have hproc : isPdfProcessed m st1 = true := by
        rw [← hrun]
        unfold isPdfProcessed
        rw [pdfFiles_processPagesFrom]
        unfold insertPdfFile
        simp [List.any_append]
      unfold processPdf
      simp [hproc]

/-- The metadata of the document already present in `exTwoPages`. -/
def exMeta : Metadata := ⟨"A", "pa"⟩

/-- Witness for C6: re-ingesting the already-present document of `exTwoPages`
is a no-op, twice over. -/
theorem C6_ingestion_idempotent_witness :
    processPdf true true exMeta [] 5 exTwoPages = Except.ok exTwoPages ∧
    processPdf true true exMeta [] 6 exTwoPages = Except.ok exTwoPages := by
  have h := C6_ingestion_idempotent exMeta [] [] 5 6 exTwoPages
  have h1 := h.1 (by decide)
  exact ⟨h1, h.2 exTwoPages h1⟩

/-! ## C7 -/

/-- C7: when the tesseract subprocess times out or exits nonzero, the call
returns the empty string rather than raising, and every temporary directory
the call created has been removed by the `finally` block; a caller-supplied
input file path is never deleted — for every input shape and size gate. -/
theorem C7_ocr_failure_returns_empty_and_clean (skip : Bool) (inp : ImgInput) :
    ((extractText skip inp SubprocResult.timeout).result = "" ∧
      (extractText skip inp SubprocResult.timeout).leakedTempDirs = 0 ∧
      (extractText skip inp SubprocResult.timeout).userFileDeleted = false) ∧
    ((extractText skip inp SubprocResult.failed).result = "" ∧
      (extractText skip inp SubprocResult.failed).leakedTempDirs = 0 ∧
      (extractText skip inp SubprocResult.failed).userFileDeleted = false) := by
  cases inp <;>
    simp only [extractText, tryBody, runTesseract] <;>
    (repeat' split) <;> simp_all

/-! ## C8 -/

/-- C8: falsified at the boundary — the code compares with `>=`, so an image
of exactly 3000x3000 = 9000000 pixels (equal to the threshold, hence "at the
threshold" in the claim's words) is *skipped* without invoking the OCR
subprocess, where the claim says such an image proceeds to OCR. -/
theorem C8_threshold_boundary_skipped :
    3000 * 3000 ≤ SKIP_ORIGINAL_IMAGE_THRESHOLD ∧
    (extractText true (ImgInput.bytes 3000 3000) (SubprocResult.ok true "hello")).invoked
        = false ∧
    (extractText true (ImgInput.bytes 3000 3000) (SubprocResult.ok true "hello")).result
        = "" := by
  exact ⟨by decide, by decide, by decide⟩

/-- C8 (amended): with `skip_large_images` enabled, an input whose
pre-optimization pixel count is *at or above* the hard threshold is skipped —
empty string, no subprocess; strictly below the threshold the call proceeds
to invoke the OCR subprocess (for an existing input file). -/
theorem C8_skip_large_images_gate (w h : Nat) (sub : SubprocResult) :
    (SKIP_ORIGINAL_IMAGE_THRESHOLD ≤ w * h →
      (extractText true (ImgInput.bytes w h) sub = ⟨"", false, 0, false⟩ ∧
        extractText true (ImgInput.image w h) sub = ⟨"", false, 0, false⟩ ∧
        extractText true (ImgInput.path true w h) sub = ⟨"", false, 0, false⟩)) ∧
    (w * h < SKIP_ORIGINAL_IMAGE_THRESHOLD →
      ((extractText true (ImgInput.bytes w h) sub).invoked = true ∧
        (extractText true (ImgInput.image w h) sub).invoked = true ∧
        (extractText true (ImgInput.path true w h) sub).invoked = true)) := by
  constructor
  · intro hge
    have hc : tooLarge true w h = true := by
      unfold tooLarge
      simp [hge]
    refine ⟨?_, ?_, ?_⟩ <;> simp [extractText, tryBody, hc]
  · intro hlt
    have hc : tooLarge true w h = false := by
      unfold tooLarge
      simp [Nat.not_le_of_lt hlt]
    refine ⟨?_, ?_, ?_⟩ <;> simp [extractText, tryBody, hc]

/-- Witness for C8 (amended): a 3000x3001 image is skipped; a 10x10 image
proceeds to the subprocess. -/
theorem C8_skip_large_images_gate_witness :
    (extractText true (ImgInput.bytes 3000 3001) (SubprocResult.ok true "t")
        = ⟨"", false, 0, false⟩ ∧
      extractText true (ImgInput.image 3000 3001) (SubprocResult.ok true "t")
        = ⟨"", false, 0, false⟩ ∧
      extractText true (ImgInput.path true 3000 3001) (SubprocResult.ok true "t")
        = ⟨"", false, 0, false⟩) ∧
    ((extractText true (ImgInput.bytes 10 10) (SubprocResult.ok true "t")).invoked = true ∧
      (extractText true (ImgInput.image 10 10) (SubprocResult.ok true "t")).invoked = true ∧
      (extractText true (ImgInput.path true 10 10) (SubprocResult.ok true "t")).invoked
        = true) :=
  ⟨(C8_skip_large_images_gate 3000 3001 (SubprocResult.ok true "t")).1 (by decide),
    (C8_skip_large_images_gate 10 10 (SubprocResult.ok true "t")).2 (by decide)⟩

/-! ## C9 -/

/-- After a dict assignment, looking the key up finds exactly the assigned
entry. -/
theorem find_tcSet_self (k v exp : Nat) (l : List TCEntry) :
    (tcSet k v exp l).find? (fun e => e.key == k) = some ⟨k, v, exp⟩ := by
  induction l with
  | nil => simp [tcSet, List.find?]
  | cons e t ih =>
    unfold tcSet
    by_cases hc : (e.key == k) = true
    · rw [if_pos hc]
      simp [List.find?]
    · rw [if_neg hc]
      simp [List.find?, hc, ih]

/-- C9: `TimedCache` semantics — a get at or past the expiration time is a
miss and deletes the entry; a get strictly before expiration returns the
stored value and leaves the cache unchanged; a get strictly before expiry
after a put returns exactly the value just put; `clear_expired` removes all
and only the entries with `expiration_time <= now` and returns their number. -/
theorem C9_timed_cache_expiry (c : TimedCache) (k v exp now nowPut nowGet t : Nat) :
    (tcLookup k c = some ⟨k, v, exp⟩ → exp ≤ now →
      tcGet now k c =
        (none, { c with entries := c.entries.eraseP (fun x => x.key == k) })) ∧
    (tcLookup k c = some ⟨k, v, exp⟩ → now < exp → tcGet now k c = (some v, c)) ∧
    (nowGet < nowPut + t →
      (tcGet nowGet k (tcPut nowPut k v (some t) c)).1 = some v) ∧
    ((tcClearExpired now c).1 =
        (c.entries.filter (fun e => decide (e.expiration ≤ now))).length ∧
      (tcClearExpired now c).2.entries =
        c.entries.filter (fun e => !decide (e.expiration ≤ now))) := by
  refine ⟨?_, ?_, ?_, rfl, rfl⟩
  · intro hl hexp
    unfold tcGet
    rw [hl]
    dsimp only
    rw [if_neg (Nat.not_lt.mpr hexp)]
  · intro hl hlt
    unfold tcGet
    rw [hl]
    dsimp only
    rw [if_pos hlt]
  · intro hlt
    unfold tcGet tcLookup tcPut
    dsimp only
    rw [find_tcSet_self]
    dsimp only [Option.getD]
    rw [if_pos hlt]

/-- A one-entry TTL cache expiring at time 10, for the C9 witness. -/
def exTC : TimedCache := { ttl := 300, entries := [⟨1, 7, 10⟩] }

/-- Witness for C9 at `exTC`: a get at time 10 misses and deletes, a get at
time 9 hits, a get after a put returns the put value, and `clear_expired`
filters exactly the expired entries. -/
theorem C9_timed_cache_expiry_witness :
    tcGet 10 1 exTC =
      (none, { exTC with entries := exTC.entries.eraseP (fun x => x.key == 1) }) ∧
    tcGet 9 1 exTC = (some 7, exTC) ∧
    (tcGet 12 1 (tcPut 11 1 7 (some 5) exTC)).1 = some 7 ∧
    (tcClearExpired 10 exTC).1 =
      (exTC.entries.filter (fun e => decide (e.expiration ≤ 10))).length ∧
    (tcClearExpired 10 exTC).2.entries =
      exTC.entries.filter (fun e => !decide (e.expiration ≤ 10)) := by
  have h10 := C9_timed_cache_expiry exTC 1 7 10 10 11 12 5
  have h9 := C9_timed_cache_expiry exTC 1 7 10 9 11 12 5
  exact ⟨h10.1 (by decide) (by decide), h9.2.1 (by decide) (by decide),
    h10.2.2.1 (by decide), h10.2.2.2.1, h10.2.2.2.2⟩

/-! ## C10 -/

/-- The HTML-special characters escaped by `html.escape`. -/
def specialChar (c : Char) : Bool :=
  c == '&' || c == '<' || c == '>' || c == '"' || c == '\''

/-- The five entity escapes `html.escape` can emit. -/
def entityChunks : List (List Char) :=
  ["&amp;".data, "&lt;".data, "&gt;".data, "&quot;".data, "&#x27;".data]

/-- A fragment of sanitizer output: an HTML entity escape, the empty fragment
(a removed control character), or a single harmless character. -/
def okChunk (l : List Char) : Prop :=
  l ∈ entityChunks ∨ l = [] ∨
    ∃ c, l = [c] ∧ specialChar c = false ∧ keepChar c = true

/-- A string that is safe to hand to the caller: it decomposes into entity
escapes and harmless characters — so every `&` in it begins an escape
sequence — and it contains no raw `<` or `>` and no control characters other
than newline, carriage return and tab. -/
def safeString (s : String) : Prop :=
  (∃ chunks : List (List Char), s.data = chunks.flatten ∧ ∀ ch ∈ chunks, okChunk ch) ∧
  '<' ∉ s.data ∧ '>' ∉ s.data ∧ ∀ c ∈ s.data, keepChar c = true

/-- The per-character image of the sanitizer, after the control filter, is
always an admissible fragment. -/
theorem okChunk_escape_filter (c : Char) : okChunk ((escapeChar c).filter keepChar) := by
  unfold escapeChar
  repeat' split
  · rw [show ("&amp;".data.filter keepChar) = "&amp;".data from by decide]
    exact Or.inl (by decide)
  · rw [show ("&lt;".data.filter keepChar) = "&lt;".data from by decide]
    exact Or.inl (by decide)
  · rw [show ("&gt;".data.filter keepChar) = "&gt;".data from by decide]
    exact Or.inl (by decide)
  · rw [show ("&quot;".data.filter keepChar) = "&quot;".data from by decide]
    exact Or.inl (by decide)
  · rw [show ("&#x27;".data.filter keepChar) = "&#x27;".data from by decide]
    exact Or.inl (by decide)
  · by_cases hk : keepChar c = true
    · rw [show ([c].filter keepChar) = [c] from by simp [hk]]
      refine Or.inr (Or.inr ⟨c, rfl, ?_, hk⟩)
      simp only [specialChar, Bool.or_eq_false_iff]
      refine ⟨⟨⟨⟨?_, ?_⟩, ?_⟩, ?_⟩, ?_⟩ <;> simp_all
    · rw [show ([c].filter keepChar) = [] from by simp [hk]]
      exact Or.inr (Or.inl rfl)

/-- No escape image contains a raw `<` or `>`. -/
theorem escapeChar_no_angle (c : Char) : '<' ∉ escapeChar c ∧ '>' ∉ escapeChar c := by
  unfold escapeChar
  repeat' split
  · exact ⟨by decide, by decide⟩
  · exact ⟨by decide, by decide⟩
  · exact ⟨by decide, by decide⟩
  · exact ⟨by decide, by decide⟩
  · exact ⟨by decide, by decide⟩
  · rename_i h1 h2 h3 h4 h5
    constructor <;> intro hmem <;> rw [List.mem_singleton] at hmem
    · exact h2 (by simp [← hmem])
    · exact h3 (by simp [← hmem])

/-- The output of `sanitize_text` is always safe. -/
theorem safeString_sanitizeText (s : String) : safeString (sanitizeText s) := by
  unfold sanitizeText
  split
  · exact ⟨⟨[], rfl, by simp⟩, by simp, by simp, by simp⟩
  · constructor
    · refine ⟨s.data.map (fun c => (escapeChar c).filter keepChar), ?_, ?_⟩
      · show ((s.data.map escapeChar).flatten).filter keepChar = _
        rw [List.filter_flatten, List.map_map]
        rfl
      · intro ch hch
        rcases List.mem_map.mp hch with ⟨c, _, rfl⟩
        exact okChunk_escape_filter c
    · refine ⟨?_, ?_, ?_⟩
      · intro hmem
        have hm2 := (List.mem_filter.mp hmem).1
        rcases List.mem_flatten.mp hm2 with ⟨l, hl, hcl⟩
        rcases List.mem_map.mp hl with ⟨c, _, rfl⟩
        exact (escapeChar_no_angle c).1 hcl
      · intro hmem
        have hm2 := (List.mem_filter.mp hmem).1
        rcases List.mem_flatten.mp hm2 with ⟨l, hl, hcl⟩
        rcases List.mem_map.mp hl with ⟨c, _, rfl⟩
        exact (escapeChar_no_angle c).2 hcl
      · intro c hc
        exact List.of_mem_filter hc

/-- C10: every tuple `search_text` returns has had its `file_name` and
text/snippet fields passed through `sanitize_text`: each of those fields
decomposes into HTML entity escapes and harmless characters, so no raw `<`,
`>` or unescaped `&` and no control character (other than newline, carriage
return, tab) ever reaches the caller — including the FTS snippet's `<mark>`
markers, which arrive escaped. -/
theorem C10_results_sanitized (fm : String → String → Bool)
    (fsnip : String → String → String) (term : String) (useFts : Bool)
    (limit offset now : Nat) (st : DBState) :
    ∀ r ∈ (searchText fm fsnip term useFts limit offset now st).1,
      safeString r.fileName ∧ safeString r.text := by
  intro r hr
  by_cases h : sanitizeSearchTerm term = ""
  · unfold searchText at hr
    simp [h] at hr
  · have heq : (searchText fm fsnip term useFts limit offset now st).1 =
        (((searchRows fm fsnip (sanitizeSearchTerm term) useFts st).drop offset).take
            limit).map sanitizeRow := by
      unfold searchText
      simp [h]
    rw [heq] at hr
    rcases List.mem_map.mp hr with ⟨q, _, rfl⟩
    exact ⟨safeString_sanitizeText _, safeString_sanitizeText _⟩

/-- Witness for C10 at the concrete store `exTwoPages`: the returned tuple
`(1, "A", 1, "x one", "PDF Text")` has safe name and text fields. -/
theorem C10_results_sanitized_witness :
    safeString "A" ∧ safeString "x one" :=
  C10_results_sanitized noFm idSnip "x" false 100 0 50 exTwoPages
    ⟨1, "A", 1, "x one", "PDF Text"⟩ (by decide)
